import Mathlib

/-!
Verification of the fstransform logging and extent-query interfaces and of the
spec-described remap planner.

The embedding follows src/fsremap/src/log.hh and src/src/io/extent_posix.hh.
Function bodies that live in .cc files absent from the source tree are modelled
from the spec and from the header documentation; each such definition carries a
doc comment starting with "Modelled from the spec:".
-/

/- ---------------------------------------------------------------------
   Log levels (src/fsremap/src/log.hh line 65):
   enum ft_log_level { FC_LEVEL_NOT_SET, FC_DUMP, FC_TRACE, FC_DEBUG,
                       FC_INFO, FC_NOTICE, FC_WARN, FC_ERROR, FC_FATAL }
   --------------------------------------------------------------------- -/

inductive ft_log_level where
  | FC_LEVEL_NOT_SET
  | FC_DUMP
  | FC_TRACE
  | FC_DEBUG
  | FC_INFO
  | FC_NOTICE
  | FC_WARN
  | FC_ERROR
  | FC_FATAL
deriving DecidableEq, Fintype

open ft_log_level

/-- Numeric value of a level, as assigned by the C enum declaration order. -/
def ft_log_level.toNat : ft_log_level → Nat
  | FC_LEVEL_NOT_SET => 0
  | FC_DUMP => 1
  | FC_TRACE => 2
  | FC_DEBUG => 3
  | FC_INFO => 4
  | FC_NOTICE => 5
  | FC_WARN => 6
  | FC_ERROR => 7
  | FC_FATAL => 8

/- Log formats (src/fsremap/src/log.hh lines 68-73). -/
inductive ft_log_fmt where
  | FC_FMT_MSG
  | FC_FMT_LEVEL_MSG
  | FC_FMT_DATETIME_LEVEL_MSG
  | FC_FMT_DATETIME_LEVEL_CALLER_MSG
deriving DecidableEq, Fintype

/- ---------------------------------------------------------------------
   Loggers.  A ft_log object (log.hh lines 143-205) has a level and a
   parent pointer (root logger has none); the logger tree is embedded as
   an inductive chain from a logger up to the root.
   --------------------------------------------------------------------- -/

inductive ft_log_tree where
  | root (level : ft_log_level)
  | child (level : ft_log_level) (parent : ft_log_tree)
deriving DecidableEq

/-- Modelled from the spec: the body of ft_log::get_effective_level lives in
log.cc, which is not in the source tree; the header doc (log.hh line 196)
states "if level is set return it, otherwise return parent effective level". -/
def get_effective_level : ft_log_tree → ft_log_level
  | ft_log_tree.root l => l
  | ft_log_tree.child l p =>
      if l = FC_LEVEL_NOT_SET then get_effective_level p else l

/-- Embeds ft_log::is_enabled (log.hh line 184):
return level >= get_effective_level(), with >= the C enum integer order. -/
def ft_log_is_enabled (lg : ft_log_tree) (level : ft_log_level) : Bool :=
  decide ((get_effective_level lg).toNat ≤ level.toNat)

/-- Embeds the suppression check of ft_log::log (log.hh line 181: log a
message unless its level is suppressed): the message is delivered exactly
when its level is enabled. -/
def ft_log_log (lg : ft_log_tree) (level : ft_log_level) (msg : String) : Option String :=
  if ft_log_is_enabled lg level then some msg else none

/- ---------------------------------------------------------------------
   Appenders (log.hh lines 105-140): a stream, a format, and a
   min_level/max_level pair.
   --------------------------------------------------------------------- -/

structure ft_log_appender where
  stream : Nat
  format : ft_log_fmt
  min_level : ft_log_level
  max_level : ft_log_level
deriving DecidableEq

/-- An appender with the constructor default arguments of log.hh line 119:
format = FC_FMT_MSG, min_level = FC_TRACE, max_level = FC_FATAL. -/
def default_appender : ft_log_appender :=
  { stream := 0, format := ft_log_fmt.FC_FMT_MSG,
    min_level := FC_TRACE, max_level := FC_FATAL }

/-- Modelled from the spec: ft_log_appender::append's body is in log.cc,
absent from the source tree; the min_level/max_level fields (log.hh line 109)
select the levels an appender accepts, as a closed range. -/
def appender_covers (a : ft_log_appender) (l : ft_log_level) : Bool :=
  decide (a.min_level.toNat ≤ l.toNat) && decide (l.toNat ≤ a.max_level.toNat)

/- ---------------------------------------------------------------------
   Emission traces.  The emission path (ff_logl / ff_logv / ft_log::log /
   ft_log_appender::append / flush_all) has its bodies in log.cc, absent
   from the source tree; the observable actions are modelled as a trace.
   --------------------------------------------------------------------- -/

inductive log_action where
  | append_to (a : ft_log_appender)
  | flush (a : ft_log_appender)
  | exit_process
deriving DecidableEq

/-- Modelled from the spec: the emission path in log.cc (absent from the
source tree).  An enabled event is appended to every appender whose
min/max range covers its level; per the spec contract "fatal events are
guaranteed flushed before the process may exit", a fatal emission flushes
every appender covering the fatal level (ft_log_appender::flush_all,
log.hh line 133) before returning. -/
def emit_event (appenders : List ft_log_appender) (lg : ft_log_tree)
    (level : ft_log_level) : List log_action :=
  if ft_log_is_enabled lg level then
    (appenders.filter (fun a => appender_covers a level)).map log_action.append_to ++
    (if level = FC_FATAL then
      (appenders.filter (fun a => appender_covers a level)).map log_action.flush
     else [])
  else []

/-- A process run that emits one event and then exits: the exit action
comes after every action of the emission. -/
def emit_then_exit (appenders : List ft_log_appender) (lg : ft_log_tree)
    (level : ft_log_level) : List log_action :=
  emit_event appenders lg level ++ [log_action.exit_process]

/-- Modelled from the spec: ff_logv's body is in log.cc, absent from the
source tree; the header doc (log.hh lines 76-81) states that it prints the
formatted message to the log stream(s) and "finally return err". -/
def ff_logv (lg : ft_log_tree) (appenders : List ft_log_appender)
    (level : ft_log_level) (err : Int) (msg : String) : List log_action × Int :=
  (emit_event appenders lg level, err)

/-- Modelled from the spec: ff_logl's body is in log.cc, absent from the
source tree; per the header doc (log.hh lines 76-81) it formats its
printf-style arguments and behaves as ff_logv, returning err. -/
def ff_logl (lg : ft_log_tree) (appenders : List ft_log_appender)
    (level : ft_log_level) (err : Int) (msg : String) : List log_action × Int :=
  ff_logv lg appenders level err msg

/- ---------------------------------------------------------------------
   Logger registry (log.hh lines 156-178): a process-wide map of all
   loggers, with find-or-create lookup.  Logger identity (the ft_log *
   pointer) is embedded as an arena id.
   --------------------------------------------------------------------- -/

structure ft_log_registry where
  all_loggers : List (String × Nat)
  next_id : Nat
deriving DecidableEq

/-- Modelled from the spec: the body of ft_log::get_logger is in log.cc,
absent from the source tree; per the header doc (log.hh line 177) it
finds or creates a logger by name in the process-wide table of all
loggers (log.hh line 158). -/
def get_logger (reg : ft_log_registry) (name : String) : ft_log_registry × Nat :=
  match reg.all_loggers.lookup name with
  | some id => (reg, id)
  | none =>
      ({ all_loggers := reg.all_loggers ++ [(name, reg.next_id)],
         next_id := reg.next_id + 1 }, reg.next_id)

/- ---------------------------------------------------------------------
   Extents and extent sets (spec section 3).
   --------------------------------------------------------------------- -/

inductive fs_region where
  | DEVICE
  | SCRATCH
deriving DecidableEq

structure fs_extent where
  offset : Nat
  length : Nat
  region : fs_region
deriving DecidableEq

/-- Total length of an extent set (spec section 3: ExtentSet total length). -/
def total_length (s : List fs_extent) : Nat :=
  (s.map fs_extent.length).sum

/-- Two extents overlap when they lie in the same region and their
half-open offset ranges intersect. -/
def extent_overlaps (a b : fs_extent) : Bool :=
  a.region == b.region &&
  decide (a.offset < b.offset + b.length) &&
  decide (b.offset < a.offset + a.length)

/- ---------------------------------------------------------------------
   POSIX extent query (src/src/io/extent_posix.hh lines 17-24).
   --------------------------------------------------------------------- -/

/-- Modelled from the spec: ff_read_extents_posix's body is in
extent_posix.cc, absent from the source tree; per the header doc it
retrieves the file's allocation map and appends it to ret_list, returning
an errno-compatible error code on failure, and its implementation "calls
ioctl(FS_IOC_FIEMAP) and if it fails, tries with ioctl(FIBMAP)".  The two
ioctl probe outcomes are inputs; the second component of the result
records whether the FIBMAP fallback was invoked. -/
def ff_read_extents_posix (fiemap_result fibmap_result : Except Int (List fs_extent))
    (ret_list : List fs_extent) : (Int × List fs_extent) × Bool :=
  match fiemap_result with
  | Except.ok exts => ((0, ret_list ++ exts), false)
  | Except.error _ =>
      match fibmap_result with
      | Except.ok exts => ((0, ret_list ++ exts), true)
      | Except.error e => ((e, ret_list), true)

/- ---------------------------------------------------------------------
   RemapPlanner (spec section 4.2).  No planner source is in the tree;
   the whole component is modelled from the spec.
   --------------------------------------------------------------------- -/

structure fs_move where
  source : fs_extent
  destination : fs_extent
deriving DecidableEq

inductive plan_error where
  | InvalidExtent
  | InsufficientSpace
  | UnreachableTarget
deriving DecidableEq

inductive ft_status where
  | PLANNING
  | RUNNING
  | PAUSED
  | DONE
  | FAILED
deriving DecidableEq

/-- Recursion core of align; the fuel argument strictly decreases at each
step, and align supplies fuel covering the whole recursion. -/
def align_fuel : Nat → List fs_extent → List fs_extent → List fs_move
  | 0, _, _ => []
  | Nat.succ _, [], _ => []
  | Nat.succ _, _ :: _, [] => []
  | Nat.succ n, s :: ss, t :: ts =>
    if s.length = t.length then
      { source := s, destination := t } :: align_fuel n ss ts
    else if s.length < t.length then
      { source := s, destination := ⟨t.offset, s.length, t.region⟩ } ::
        align_fuel n ss (⟨t.offset + s.length, t.length - s.length, t.region⟩ :: ts)
    else
      { source := ⟨s.offset, t.length, s.region⟩, destination := t } ::
        align_fuel n (⟨s.offset + t.length, s.length - t.length, s.region⟩ :: ss) ts

/-- Modelled from the spec: pairing of source content with target content
(spec section 4.2 step 1, "one node per relocating range").  The two maps
carry the same content in offset order, so corresponding ranges are
obtained by splitting extents at each boundary of the other map. -/
def align (s t : List fs_extent) : List fs_move :=
  align_fuel (s.length + t.length) s t

/-- Ordering of pending moves by the logical offset of their source range
(spec section 4.2 step 5: ascending order of lowest logical offset). -/
def move_le (a b : fs_move) : Bool :=
  decide (a.source.offset ≤ b.source.offset)

def insert_move (m : fs_move) : List fs_move → List fs_move
  | [] => [m]
  | x :: xs => if move_le m x then m :: x :: xs else x :: insert_move m xs

def sort_moves (ms : List fs_move) : List fs_move :=
  ms.foldr insert_move []

/-- Dependency edge test (spec section 4.2 step 1): move m is blocked while
some other pending move b still occupies m's destination (edge m -> b:
b must vacate before m can land). -/
def blocked_by (pending : List fs_move) (m : fs_move) : Bool :=
  pending.any (fun b => !(b == m) && extent_overlaps m.destination b.source)

/-- Recursion core of chunk_move; the remaining source length strictly
decreases, and chunk_move supplies it as fuel. -/
def chunk_fuel : Nat → Nat → fs_move → List fs_move
  | 0, _, m => [m]
  | Nat.succ n, cap, m =>
    if m.source.length ≤ cap ∨ cap = 0 then [m]
    else
      { source := ⟨m.source.offset, cap, m.source.region⟩,
        destination := ⟨m.destination.offset, cap, m.destination.region⟩ } ::
      chunk_fuel n cap
        { source := ⟨m.source.offset + cap, m.source.length - cap, m.source.region⟩,
          destination := ⟨m.destination.offset + cap, m.destination.length - cap, m.destination.region⟩ }

/-- Modelled from the spec: splitting an over-capacity move into
capacity-sized chunks, preserving relative order (spec section 4.2 step 4). -/
def chunk_move (cap : Nat) (m : fs_move) : List fs_move :=
  chunk_fuel m.source.length cap m

/-- Modelled from the spec: the scheduling core of RemapPlanner (spec
section 4.2 steps 2-5).  Pending moves are kept in ascending source-offset
order; an unblocked move is emitted directly source -> destination; when
every pending move is blocked (a cycle of mutual blocking), the pending
move with the lowest source offset is routed through the scratch extent:
its content moves to scratch first, and a pending move from scratch to its
true destination replaces it, so the rest of the cycle rotates before the
scratch copy lands last.  An over-capacity cycle member is first split
into capacity-sized chunks; with zero scratch capacity a cycle is
unresolvable and planning fails with InsufficientSpace.  The fuel bounds
the recursion; planMoves supplies enough fuel for any input. -/
def schedule (scratch : fs_extent) : Nat → List fs_move → Except plan_error (List fs_move)
  | _, [] => Except.ok []
  | 0, _ :: _ => Except.error plan_error.InsufficientSpace
  | Nat.succ fuel, m :: rest =>
    match (m :: rest).find? (fun x => !(blocked_by (m :: rest) x)) with
    | some r =>
        match schedule scratch fuel ((m :: rest).erase r) with
        | Except.ok tail => Except.ok (r :: tail)
        | Except.error e => Except.error e
    | none =>
        if m.source.length ≤ scratch.length ∧ 0 < scratch.length then
          match schedule scratch fuel
              (sort_moves ({ source := ⟨scratch.offset, m.source.length, fs_region.SCRATCH⟩,
                             destination := m.destination } :: rest)) with
          | Except.ok tail =>
              Except.ok ({ source := m.source,
                           destination := ⟨scratch.offset, m.source.length, fs_region.SCRATCH⟩ } :: tail)
          | Except.error e => Except.error e
        else if 0 < scratch.length then
          schedule scratch fuel (sort_moves (chunk_move scratch.length m ++ rest))
        else Except.error plan_error.InsufficientSpace

structure planner_input where
  source_map : List fs_extent
  target_map : List fs_extent
  free_extents : List fs_extent
  scratch_extent : fs_extent
deriving DecidableEq

/-- Modelled from the spec: RemapPlanner (spec section 4.2).  Checks the
equal-total-length precondition (failure UnreachableTarget), derives the
relocating ranges (pairs whose source and destination differ), orders them
ascending by lowest logical offset, and schedules them into an ordered
move list. -/
def planMoves (input : planner_input) : Except plan_error (List fs_move) :=
  if total_length input.source_map = total_length input.target_map then
    schedule input.scratch_extent
      (2 * (total_length input.source_map +
            (align input.source_map input.target_map).length + 1))
      (sort_moves ((align input.source_map input.target_map).filter
        (fun m => !(m.source == m.destination))))
  else Except.error plan_error.UnreachableTarget

structure run_result where
  moves : List fs_move
  moves_executed : Nat
  status : ft_status
deriving DecidableEq

/-- Modelled from the spec: the entry point run (spec section 6) plans and
then lets the Executor drain the whole plan, reaching DONE with every
planned move executed; planning failures surface as errors with nothing
executed. -/
def fst_run (input : planner_input) : Except plan_error run_result :=
  match planMoves input with
  | Except.error e => Except.error e
  | Except.ok ms => Except.ok { moves := ms, moves_executed := ms.length, status := ft_status.DONE }

/- ---------------------------------------------------------------------
   Helper lemmas.
   --------------------------------------------------------------------- -/

theorem level_toNat_le_fatal : ∀ l : ft_log_level, l.toNat ≤ FC_FATAL.toNat := by
  decide

theorem fatal_always_enabled (lg : ft_log_tree) :
    ft_log_is_enabled lg FC_FATAL = true := by
  simp only [ft_log_is_enabled, decide_eq_true_eq]
  exact level_toNat_le_fatal (get_effective_level lg)

/- ---------------------------------------------------------------------
   Claim theorems.
   --------------------------------------------------------------------- -/

/-- C1 counterexample: the claim that any level can be enabled while any
other is disabled fails at the concrete pair (FC_DEBUG, FC_ERROR): no
logger enables FC_DEBUG while disabling FC_ERROR, because ft_log's
enablement is the single threshold level >= get_effective_level(). -/
theorem C1_counterexample :
    ¬ ∃ lg : ft_log_tree,
      ft_log_is_enabled lg FC_DEBUG = true ∧ ft_log_is_enabled lg FC_ERROR = false := by
  rintro ⟨lg, h1, h2⟩
  simp only [ft_log_is_enabled, decide_eq_true_eq, decide_eq_false_iff_not] at h1 h2
  exact h2 (h1.trans (by decide))

/-- C1 (amended): logger enablement is a monotone severity threshold, not
per-level independent.  For any two levels l1 strictly less severe than
l2, some logger enables l2 while disabling l1, no logger enables l1 while
disabling l2, and only an appender min/max window can accept l1 while
rejecting l2. -/
theorem C1_threshold_enablement (l1 l2 : ft_log_level) (h : l1.toNat < l2.toNat) :
    (∃ lg : ft_log_tree,
       ft_log_is_enabled lg l2 = true ∧ ft_log_is_enabled lg l1 = false) ∧
    (¬ ∃ lg : ft_log_tree,
       ft_log_is_enabled lg l1 = true ∧ ft_log_is_enabled lg l2 = false) ∧
    (∃ a : ft_log_appender,
       appender_covers a l1 = true ∧ appender_covers a l2 = false) := by
  refine ⟨⟨ft_log_tree.root l2, ?_, ?_⟩, ?_, ?_⟩
  · simp [ft_log_is_enabled, get_effective_level]
  · simp only [ft_log_is_enabled, get_effective_level, decide_eq_false_iff_not]
    omega
  · rintro ⟨lg, h1, h2⟩
    simp only [ft_log_is_enabled, decide_eq_true_eq, decide_eq_false_iff_not] at h1 h2
    omega
  · refine ⟨{ stream := 0, format := ft_log_fmt.FC_FMT_MSG, min_level := l1, max_level := l1 }, ?_, ?_⟩
    · simp [appender_covers]
    · simp only [appender_covers, Bool.and_eq_false_iff, decide_eq_false_iff_not]
      omega

/-- C1 witness for the amended theorem, at the concrete pair
(FC_DEBUG, FC_ERROR). -/
theorem C1_threshold_enablement_witness :
    FC_DEBUG.toNat < FC_ERROR.toNat ∧
    ((∃ lg : ft_log_tree,
       ft_log_is_enabled lg FC_ERROR = true ∧ ft_log_is_enabled lg FC_DEBUG = false) ∧
     (¬ ∃ lg : ft_log_tree,
       ft_log_is_enabled lg FC_DEBUG = true ∧ ft_log_is_enabled lg FC_ERROR = false) ∧
     (∃ a : ft_log_appender,
       appender_covers a FC_DEBUG = true ∧ appender_covers a FC_ERROR = false)) :=
  ⟨by decide, C1_threshold_enablement FC_DEBUG FC_ERROR (by decide)⟩

/-- C6: severities are totally ordered by their enum value, the enum value
determines the level, and logger enablement is monotone in severity: an
enabled level makes every at-least-as-severe level enabled too. -/
theorem C6_severity_monotone (lg : ft_log_tree) (l1 l2 : ft_log_level)
    (h1 : ft_log_is_enabled lg l1 = true) (hle : l1.toNat ≤ l2.toNat) :
    ft_log_is_enabled lg l2 = true ∧
    (∀ a b : ft_log_level, a.toNat ≤ b.toNat ∨ b.toNat ≤ a.toNat) ∧
    (∀ a b : ft_log_level, a.toNat = b.toNat → a = b) := by
  refine ⟨?_, fun a b => Nat.le_total _ _, by decide⟩
  simp only [ft_log_is_enabled, decide_eq_true_eq] at h1 ⊢
  omega

/-- C6 witness at a concrete logger and level pair. -/
theorem C6_severity_monotone_witness :
    ft_log_is_enabled (ft_log_tree.root FC_INFO) FC_INFO = true ∧
    FC_INFO.toNat ≤ FC_ERROR.toNat ∧
    (ft_log_is_enabled (ft_log_tree.root FC_INFO) FC_ERROR = true ∧
     (∀ a b : ft_log_level, a.toNat ≤ b.toNat ∨ b.toNat ≤ a.toNat) ∧
     (∀ a b : ft_log_level, a.toNat = b.toNat → a = b)) :=
  ⟨by decide, by decide,
   C6_severity_monotone (ft_log_tree.root FC_INFO) FC_INFO FC_ERROR (by decide) (by decide)⟩

/-- C9: ff_logl and ff_logv return their err argument unchanged, whatever
the level, the suppression outcome and the message. -/
theorem C9_logl_returns_err (lg : ft_log_tree) (apps : List ft_log_appender)
    (level : ft_log_level) (err : Int) (msg : String) :
    (ff_logl lg apps level err msg).2 = err ∧ (ff_logv lg apps level err msg).2 = err :=
  ⟨rfl, rfl⟩

/-- C10: a child logger's effective level is its own level when set,
otherwise the parent's effective level, and a message is delivered exactly
when its level reaches the effective level. -/
theorem C10_effective_level (l : ft_log_level) (p : ft_log_tree)
    (lvl : ft_log_level) (m : String) :
    (l ≠ FC_LEVEL_NOT_SET → get_effective_level (ft_log_tree.child l p) = l) ∧
    (l = FC_LEVEL_NOT_SET → get_effective_level (ft_log_tree.child l p) = get_effective_level p) ∧
    (ft_log_log (ft_log_tree.child l p) lvl m = some m ↔
       (get_effective_level (ft_log_tree.child l p)).toNat ≤ lvl.toNat) := by
  refine ⟨fun h => by simp [get_effective_level, h], fun h => by simp [get_effective_level, h], ?_⟩
  by_cases hc : (get_effective_level (ft_log_tree.child l p)).toNat ≤ lvl.toNat <;>
    simp [ft_log_log, ft_log_is_enabled, hc]

/-- C10 witness: a set child level overrides the parent, an unset one
inherits, and delivery matches the threshold, at concrete loggers. -/
theorem C10_effective_level_witness :
    get_effective_level (ft_log_tree.child FC_DEBUG (ft_log_tree.root FC_INFO)) = FC_DEBUG ∧
    get_effective_level (ft_log_tree.child FC_LEVEL_NOT_SET (ft_log_tree.root FC_INFO)) = FC_INFO ∧
    (ft_log_log (ft_log_tree.child FC_DEBUG (ft_log_tree.root FC_INFO)) FC_WARN "x" = some "x" ↔
       (get_effective_level (ft_log_tree.child FC_DEBUG (ft_log_tree.root FC_INFO))).toNat ≤ FC_WARN.toNat) :=
  ⟨(C10_effective_level FC_DEBUG (ft_log_tree.root FC_INFO) FC_WARN "x").1 (by decide),
   (C10_effective_level FC_LEVEL_NOT_SET (ft_log_tree.root FC_INFO) FC_WARN "x").2.1 rfl,
   (C10_effective_level FC_DEBUG (ft_log_tree.root FC_INFO) FC_WARN "x").2.2⟩

/-- C2: when the FS_IOC_FIEMAP probe succeeds, the FIBMAP fallback is
never invoked and the fiemap extents are appended. -/
theorem C2_fiemap_first (fm fb : Except Int (List fs_extent))
    (l exts : List fs_extent) (h : fm = Except.ok exts) :
    (ff_read_extents_posix fm fb l).2 = false ∧
    (ff_read_extents_posix fm fb l).1 = (0, l ++ exts) := by
  subst h
  exact ⟨rfl, rfl⟩

/-- C2 witness at concrete probe outcomes: a successful fiemap probe next
to a failing fibmap probe, fallback unused. -/
theorem C2_fiemap_first_witness :
    (Except.ok [(⟨0, 8, fs_region.DEVICE⟩ : fs_extent)] : Except Int (List fs_extent)) =
      Except.ok [⟨0, 8, fs_region.DEVICE⟩] ∧
    (ff_read_extents_posix (Except.ok [⟨0, 8, fs_region.DEVICE⟩]) (Except.error 5) []).2 = false ∧
    (ff_read_extents_posix (Except.ok [⟨0, 8, fs_region.DEVICE⟩]) (Except.error 5) []).1 =
      (0, [] ++ [⟨0, 8, fs_region.DEVICE⟩]) :=
  ⟨rfl, C2_fiemap_first (Except.ok [⟨0, 8, fs_region.DEVICE⟩]) (Except.error 5) []
    [⟨0, 8, fs_region.DEVICE⟩] rfl⟩

/-- C3: on success (either probe) ff_read_extents_posix returns 0 and
appends the probed extents to the given container; when both probes fail
it returns the errno-compatible (nonzero) code of the last probe. -/
theorem C3_append_or_error (fm fb : Except Int (List fs_extent)) (l : List fs_extent) :
    (∀ exts, fm = Except.ok exts →
       (ff_read_extents_posix fm fb l).1 = (0, l ++ exts)) ∧
    (∀ e exts, fm = Except.error e → fb = Except.ok exts →
       (ff_read_extents_posix fm fb l).1 = (0, l ++ exts)) ∧
    (∀ e1 e2, fm = Except.error e1 → fb = Except.error e2 → e2 ≠ 0 →
       (ff_read_extents_posix fm fb l).1.1 = e2 ∧ (ff_read_extents_posix fm fb l).1.1 ≠ 0) := by
  refine ⟨?_, ?_, ?_⟩
  · rintro exts rfl
    rfl
  · rintro e exts rfl rfl
    rfl
  · rintro e1 e2 rfl rfl hne
    exact ⟨rfl, hne⟩

/-- C3 witness: a successful first probe appends, and a doubly failing
probe pair surfaces the nonzero errno code. -/
theorem C3_append_or_error_witness :
    (ff_read_extents_posix (Except.ok [⟨4, 12, fs_region.DEVICE⟩])
        (Except.error 5) [⟨0, 4, fs_region.DEVICE⟩]).1 =
      (0, [⟨0, 4, fs_region.DEVICE⟩] ++ [⟨4, 12, fs_region.DEVICE⟩]) ∧
    ((ff_read_extents_posix (Except.error 95) (Except.error 22) []).1.1 = 22 ∧
     (ff_read_extents_posix (Except.error 95) (Except.error 22) []).1.1 ≠ 0) :=
  ⟨(C3_append_or_error (Except.ok [⟨4, 12, fs_region.DEVICE⟩]) (Except.error 5)
      [⟨0, 4, fs_region.DEVICE⟩]).1 [⟨4, 12, fs_region.DEVICE⟩] rfl,
   (C3_append_or_error (Except.error 95) (Except.error 22) []).2.2 95 22 rfl rfl (by decide)⟩

theorem lookup_append_self (l : List (String × Nat)) (name : String) (id : Nat)
    (h : l.lookup name = none) :
    (l ++ [(name, id)]).lookup name = some id := by
  induction l with
  | nil => simp [List.lookup]
  | cons kv tail ih =>
    cases hk : (name == kv.1) with
    | true =>
      exfalso
      simp [List.lookup, hk] at h
    | false =>
      simp only [List.cons_append, List.lookup, hk] at h ⊢
      exact ih h

/-- C8: logger lookup over the process-wide table is find-or-create: a
second get_logger call with the same name returns the same logger id and
leaves the table unchanged. -/
theorem C8_get_logger_find_or_create (reg : ft_log_registry) (name : String) :
    (get_logger (get_logger reg name).1 name).2 = (get_logger reg name).2 ∧
    (get_logger (get_logger reg name).1 name).1 = (get_logger reg name).1 := by
  unfold get_logger
  cases h : reg.all_loggers.lookup name with
  | some id => simp [h]
  | none => simp [h, lookup_append_self reg.all_loggers name reg.next_id h]

theorem emit_event_ne_exit (apps : List ft_log_appender) (lg : ft_log_tree)
    (level : ft_log_level) (x : log_action) (hx : x ∈ emit_event apps lg level) :
    x ≠ log_action.exit_process := by
  unfold emit_event at hx
  by_cases he : ft_log_is_enabled lg level = true
  · simp only [he, if_true, List.mem_append, List.mem_map] at hx
    rcases hx with ⟨a, _, rfl⟩ | hx
    · simp
    · by_cases hf : level = FC_FATAL
      · simp only [hf, if_true, List.mem_map] at hx
        obtain ⟨a, _, rfl⟩ := hx
        simp
      · simp [hf] at hx
  · simp [he] at hx

theorem flush_mem_emit_fatal (apps : List ft_log_appender) (lg : ft_log_tree)
    (a : ft_log_appender) (ha : a ∈ apps) (hc : appender_covers a FC_FATAL = true) :
    log_action.flush a ∈ emit_event apps lg FC_FATAL := by
  unfold emit_event
  simp only [fatal_always_enabled lg, if_true, List.mem_append, List.mem_map,
    List.mem_filter]
  exact Or.inr ⟨a, ⟨ha, hc⟩, rfl⟩

/-- C7: after a fatal emission, every appender covering the fatal level is
flushed at a trace position strictly before the process-exit action. -/
theorem C7_fatal_flush_before_exit (apps : List ft_log_appender) (lg : ft_log_tree)
    (a : ft_log_appender) (ha : a ∈ apps) (hc : appender_covers a FC_FATAL = true) :
    ∃ j, (emit_then_exit apps lg FC_FATAL).get? j = some (log_action.flush a) ∧
      ∀ i, (emit_then_exit apps lg FC_FATAL).get? i = some log_action.exit_process → j < i := by
  obtain ⟨n, hn⟩ := List.get?_of_mem (flush_mem_emit_fatal apps lg a ha hc)
  have hlt : n < (emit_event apps lg FC_FATAL).length := by
    obtain ⟨h, _⟩ := List.get?_eq_some.mp hn
    exact h
  refine ⟨n, ?_, ?_⟩
  · rw [emit_then_exit, List.get?_append hlt]
    exact hn
  · intro i hi
    by_contra hni
    push_neg at hni
    have hilt : i < (emit_event apps lg FC_FATAL).length := lt_of_le_of_lt hni hlt
    rw [emit_then_exit, List.get?_append hilt] at hi
    exact emit_event_ne_exit apps lg FC_FATAL _ (List.get?_mem hi) rfl

/-- C7 witness: the default-constructed appender covers FC_FATAL and is
flushed before exit in a concrete one-appender run. -/
theorem C7_fatal_flush_before_exit_witness :
    default_appender ∈ [default_appender] ∧
    appender_covers default_appender FC_FATAL = true ∧
    (∃ j, (emit_then_exit [default_appender] (ft_log_tree.root FC_INFO) FC_FATAL).get? j =
        some (log_action.flush default_appender) ∧
      ∀ i, (emit_then_exit [default_appender] (ft_log_tree.root FC_INFO) FC_FATAL).get? i =
          some log_action.exit_process → j < i) :=
  ⟨List.mem_singleton.mpr rfl, by decide,
   C7_fatal_flush_before_exit [default_appender] (ft_log_tree.root FC_INFO) default_appender
     (List.mem_singleton.mpr rfl) (by decide)⟩

theorem align_fuel_self (s : List fs_extent) : ∀ n, s.length ≤ n →
    align_fuel n s s = s.map (fun e => { source := e, destination := e }) := by
  induction s with
  | nil => intro n _; cases n <;> rfl
  | cons e es ih =>
    intro n hn
    cases n with
    | zero => exact absurd hn (by simp)
    | succ n =>
      simp only [align_fuel, eq_self_iff_true, if_true, List.map_cons, List.cons.injEq,
        true_and]
      exact ih n (Nat.le_of_succ_le_succ hn)

theorem align_self (s : List fs_extent) :
    align s s = s.map (fun e => { source := e, destination := e }) :=
  align_fuel_self s (s.length + s.length) (Nat.le_add_right _ _)

theorem filter_diag_nil (s : List fs_extent) :
    (s.map (fun e => ({ source := e, destination := e } : fs_move))).filter
      (fun m => !(m.source == m.destination)) = [] := by
  induction s with
  | nil => rfl
  | cons e es ih => simp [List.filter, ih]

theorem schedule_nil (scratch : fs_extent) (n : Nat) :
    schedule scratch n [] = Except.ok [] := by
  cases n <;> rfl

/-- C4: planning is deterministic: two runs of the planner (and of the
whole entry point) on identical inputs yield identical ordered move lists
and identical outcomes. -/
theorem C4_deterministic_planning (i1 i2 : planner_input) (h : i1 = i2) :
    planMoves i1 = planMoves i2 ∧ fst_run i1 = fst_run i2 := by
  subst h
  exact ⟨rfl, rfl⟩

/-- C4 witness at the concrete two-extent swap input. -/
theorem C4_deterministic_planning_witness :
    (⟨[⟨0, 100, fs_region.DEVICE⟩, ⟨100, 100, fs_region.DEVICE⟩],
      [⟨100, 100, fs_region.DEVICE⟩, ⟨0, 100, fs_region.DEVICE⟩],
      [], ⟨1000, 100, fs_region.SCRATCH⟩⟩ : planner_input) =
    ⟨[⟨0, 100, fs_region.DEVICE⟩, ⟨100, 100, fs_region.DEVICE⟩],
      [⟨100, 100, fs_region.DEVICE⟩, ⟨0, 100, fs_region.DEVICE⟩],
      [], ⟨1000, 100, fs_region.SCRATCH⟩⟩ ∧
    (planMoves ⟨[⟨0, 100, fs_region.DEVICE⟩, ⟨100, 100, fs_region.DEVICE⟩],
        [⟨100, 100, fs_region.DEVICE⟩, ⟨0, 100, fs_region.DEVICE⟩],
        [], ⟨1000, 100, fs_region.SCRATCH⟩⟩ =
      planMoves ⟨[⟨0, 100, fs_region.DEVICE⟩, ⟨100, 100, fs_region.DEVICE⟩],
        [⟨100, 100, fs_region.DEVICE⟩, ⟨0, 100, fs_region.DEVICE⟩],
        [], ⟨1000, 100, fs_region.SCRATCH⟩⟩ ∧
     fst_run ⟨[⟨0, 100, fs_region.DEVICE⟩, ⟨100, 100, fs_region.DEVICE⟩],
        [⟨100, 100, fs_region.DEVICE⟩, ⟨0, 100, fs_region.DEVICE⟩],
        [], ⟨1000, 100, fs_region.SCRATCH⟩⟩ =
      fst_run ⟨[⟨0, 100, fs_region.DEVICE⟩, ⟨100, 100, fs_region.DEVICE⟩],
        [⟨100, 100, fs_region.DEVICE⟩, ⟨0, 100, fs_region.DEVICE⟩],
        [], ⟨1000, 100, fs_region.SCRATCH⟩⟩) :=
  ⟨rfl, C4_deterministic_planning _ _ rfl⟩

/-- C5: when the source map equals the target map the planner yields the
empty move list and the run finishes immediately (zero moves executed)
with status DONE. -/
theorem C5_noop_empty_plan_done (input : planner_input)
    (h : input.source_map = input.target_map) :
    planMoves input = Except.ok [] ∧
    fst_run input = Except.ok { moves := [], moves_executed := 0, status := ft_status.DONE } := by
  have hp : planMoves input = Except.ok [] := by
    unfold planMoves
    rw [h, if_pos rfl, align_self, filter_diag_nil]
    exact schedule_nil _ _
  refine ⟨hp, ?_⟩
  unfold fst_run
  rw [hp]
  rfl

/-- C5 witness at a concrete input whose source and target maps coincide. -/
theorem C5_noop_empty_plan_done_witness :
    (⟨[⟨0, 10, fs_region.DEVICE⟩], [⟨0, 10, fs_region.DEVICE⟩],
      [], ⟨1000, 100, fs_region.SCRATCH⟩⟩ : planner_input).source_map =
    (⟨[⟨0, 10, fs_region.DEVICE⟩], [⟨0, 10, fs_region.DEVICE⟩],
      [], ⟨1000, 100, fs_region.SCRATCH⟩⟩ : planner_input).target_map ∧
    (planMoves ⟨[⟨0, 10, fs_region.DEVICE⟩], [⟨0, 10, fs_region.DEVICE⟩],
        [], ⟨1000, 100, fs_region.SCRATCH⟩⟩ = Except.ok [] ∧
     fst_run ⟨[⟨0, 10, fs_region.DEVICE⟩], [⟨0, 10, fs_region.DEVICE⟩],
        [], ⟨1000, 100, fs_region.SCRATCH⟩⟩ =
      Except.ok { moves := [], moves_executed := 0, status := ft_status.DONE }) :=
  ⟨rfl, C5_noop_empty_plan_done _ rfl⟩
